import Mathlib

/-!
Verification development for the kubernetes-csi-addons reconciliation and
state-machine engine.  The repository snapshot contains the e2e test suite,
the test framework and configuration; the controller core itself is not part
of the snapshot, so the engine's data model and operations are modelled from
the specification (each such definition carries a doc comment starting with
`Modelled from the spec:`).  The test-framework storage-class getters are
translated directly from `test/e2e/framework/csiaddons.go` and
`test/e2e/config/config.go`.
-/

namespace CSIAddons

/-! ### Volume claims and group membership (spec sections 3, 4.3, 9) -/

/-- Binding phase of an externally owned volume claim. -/
inductive ClaimPhase where
  | pending
  | bound
  deriving DecidableEq, Repr

/-- Modelled from the spec: a VolumeClaim (spec section 3) is external, consulted
for its binding phase, its backend volume identity, and the group-membership
labels evaluated by the Group Membership Tracker. -/
structure VolumeClaim where
  name : String
  labels : List (String × String)
  phase : ClaimPhase
  volumeHandle : String
  deriving DecidableEq, Repr

/-- Modelled from the spec: a label selector matches a claim when every
key/value pair of the selector is present among the claim's labels. -/
def matchesSelector (sel : List (String × String)) (lbls : List (String × String)) : Bool :=
  sel.all (fun kv => lbls.contains kv)

/-- Modelled from the spec: the member set is exactly the claims matching the
selector that are in a bound state (spec section 4.3); an unbound claim is
excluded from the set entirely. -/
def isMember (sel : List (String × String)) (c : VolumeClaim) : Bool :=
  matchesSelector sel c.labels && c.phase == ClaimPhase.bound

/-- Modelled from the spec: the pure membership function of section 9,
(selector, inventory snapshot) to member set, called fresh each reconcile pass. -/
def resolveMembership (sel : List (String × String)) (inventory : List VolumeClaim) :
    List VolumeClaim :=
  inventory.filter (fun c => isMember sel c)

/-- Names of the resolved members. -/
def memberNames (sel : List (String × String)) (inventory : List VolumeClaim) : List String :=
  (resolveMembership sel inventory).map VolumeClaim.name

/-- Modelled from the spec: a group ReplicationIntent carries a label selector
in its spec and the resolved member list in its status (spec section 3). -/
structure GroupIntent where
  selector : List (String × String)
  members : List String
  deriving DecidableEq, Repr

/-- Modelled from the spec: the derived ReplicationContent holds the resolved
list of backend volume handles for the owning group Intent (spec section 3). -/
structure GroupContent where
  volumeHandles : List String
  deriving DecidableEq, Repr

/-- Modelled from the spec: one steady-state reconcile pass of the Group
Membership Tracker, recording the freshly resolved member names in the
Intent's status (spec sections 4.3 and 9; membership is recomputed from the
inventory snapshot, never cached). -/
def reconcileMembership (g : GroupIntent) (inventory : List VolumeClaim) : GroupIntent :=
  { g with members := memberNames g.selector inventory }

/-- Backend volume handles of the bound claims named in a member list. -/
def boundHandlesOfMembers (members : List String) (inventory : List VolumeClaim) :
    List String :=
  (inventory.filter (fun c => members.contains c.name && c.phase == ClaimPhase.bound)).map
    VolumeClaim.volumeHandle

/-- Modelled from the spec: the Content update of section 4.3, recording the
bound backend volumes of the claims currently in the owning Intent's member
list. -/
def reconcileContent (g : GroupIntent) (inventory : List VolumeClaim)
    (content : GroupContent) : GroupContent :=
  { content with volumeHandles := boundHandlesOfMembers g.members inventory }

/-- One full reconcile pass of the group variant: membership resolution
followed by the Content update (spec sections 4.1 and 4.3). -/
def fullReconcile (g : GroupIntent) (inventory : List VolumeClaim)
    (content : GroupContent) : GroupIntent × GroupContent :=
  let g2 := reconcileMembership g inventory
  (g2, reconcileContent g2 inventory content)

/-- Remove one label key from a claim, as an operator does when taking a claim
out of a replication group. -/
def removeLabel (key : String) (c : VolumeClaim) : VolumeClaim :=
  { c with labels := c.labels.filter (fun kv => kv.1 != key) }

/-! ### Fencing state machine (spec section 4.4) -/

/-- Desired fence state of a FenceIntent. -/
inductive FenceState where
  | fenced
  | unfenced
  deriving DecidableEq, Repr

/-- Result of a fencing operation recorded in status. -/
inductive FencingOperationResult where
  | succeeded
  | failed
  deriving DecidableEq, Repr

/-- Outcome of an RPC call to the remote agent. -/
inductive RpcOutcome where
  | success (message : String)
  | failure (message : String)
  deriving DecidableEq, Repr

/-- Modelled from the spec: the descriptive message recorded on success is part
of the observable contract and contains the operation kind (spec section 4.4). -/
def fenceOperationMessage : FenceState → String
  | FenceState.fenced => "fencing operation successful"
  | FenceState.unfenced => "unfencing operation successful"

/-- Status of a FenceIntent: last operation result plus message. -/
structure FenceStatus where
  result : Option FencingOperationResult
  message : String
  deriving DecidableEq, Repr

/-- Modelled from the spec: the fencing state machine of section 4.4.  A spec
edit triggers one RPC call; success records Succeeded with the descriptive
message for the current desired state, failure records Failed with the agent's
message and leaves the prior effect assumed unchanged. -/
def reconcileFence (desired : FenceState) (outcome : RpcOutcome) (st : FenceStatus) :
    FenceStatus :=
  match outcome with
  | RpcOutcome.success _ =>
      { result := some FencingOperationResult.succeeded
        message := fenceOperationMessage desired }
  | RpcOutcome.failure m =>
      { st with result := some FencingOperationResult.failed, message := m }

/-- Process a sequence of desired-state spec edits, each RPC succeeding,
collecting the status observed after each edit. -/
def runFenceEdits : List FenceState → FenceStatus → List FenceStatus
  | [], _ => []
  | s :: rest, st =>
      let st2 := reconcileFence s (RpcOutcome.success "") st
      st2 :: runFenceEdits rest st2

/-- The string `needle` occurs as a contiguous substring of `hay`. -/
def containsSubstr (hay needle : String) : Prop :=
  ∃ before after, hay = before ++ needle ++ after

/-! ### Deletion ordering and owner cascade (spec sections 4.2, 4.5) -/

/-- Modelled from the spec: the observable state of one replication Intent, the
VolumeClaim it references (with its protective finalizer and deletion
timestamp), and the derived Content resource (spec section 4.5). -/
structure ClusterState where
  intentExists : Bool
  intentDeleting : Bool
  claimExists : Bool
  claimDeletionRequested : Bool
  claimFinalizer : Bool
  contentExists : Bool
  deriving DecidableEq, Repr

/-- Initial state: a non-terminal Primary-state Intent references a live claim
carrying the protective finalizer, with the derived Content in place. -/
def initState : ClusterState :=
  { intentExists := true
    intentDeleting := false
    claimExists := true
    claimDeletionRequested := false
    claimFinalizer := true
    contentExists := true }

/-- Modelled from the spec: the deletion-ordering transitions of sections 4.2
and 4.5.  A claim deletion is accepted (timestamp set) but physical removal
requires the finalizer to be gone; the Intent's deletion finalizer logic
disables the backend relationship (a missing target counts as success, so the
step is always enabled), removes the claim's finalizer, cascades deletion of
the derived Content, and removes the Intent. -/
inductive Step : ClusterState → ClusterState → Prop where
  | requestClaimDeletion (s : ClusterState) (h : s.claimExists = true) :
      Step s { s with claimDeletionRequested := true }
  | removeClaim (s : ClusterState) (h : s.claimExists = true)
      (hreq : s.claimDeletionRequested = true) (hfin : s.claimFinalizer = false) :
      Step s { s with claimExists := false }
  | requestIntentDeletion (s : ClusterState) (h : s.intentExists = true) :
      Step s { s with intentDeleting := true }
  | finalizeIntent (s : ClusterState) (h : s.intentExists = true)
      (hd : s.intentDeleting = true) :
      Step s { s with intentExists := false, claimFinalizer := false, contentExists := false }

/-- States reachable from the initial state. -/
inductive Reachable : ClusterState → Prop where
  | init : Reachable initState
  | step {s t : ClusterState} : Reachable s → Step s t → Reachable t

/-- Finite sequences of steps. -/
inductive StepSeq : ClusterState → ClusterState → Prop where
  | refl (s : ClusterState) : StepSeq s s
  | tail {s t u : ClusterState} : StepSeq s t → Step t u → StepSeq s u

/-! ### One-shot operations (spec sections 3, 6, 7) -/

/-- Result of a one-shot operation. -/
inductive OperationResult where
  | succeeded
  | failed
  deriving DecidableEq, Repr

/-- Status of a one-shot operation: result is unset, Succeeded or Failed, and
the operation is terminal once the result is set. -/
structure OneShotStatus where
  result : Option OperationResult
  message : String
  deriving DecidableEq, Repr

/-- Classified outcome of the ReclaimSpace RPC. -/
inductive ReclaimOutcome where
  | ok
  | volumeNotFound
  | transientError
  deriving DecidableEq, Repr

/-- Modelled from the spec: ReclaimSpace on a missing target reports "volume
not found", a terminal failure, not retryable (spec section 6). -/
def reclaimSpaceRpc (targetExists : Bool) : ReclaimOutcome :=
  if targetExists then ReclaimOutcome.ok else ReclaimOutcome.volumeNotFound

/-- Modelled from the spec: one reconcile pass of the one-shot operation state
machine (spec sections 3 and 7).  A status with a result set is terminal and
never re-executed (zero RPC calls); otherwise one RPC is issued, a terminal
"volume not found" failure records Failed, success records Succeeded, and a
transient error leaves the status unset for a later retry.  The second
component counts the RPC calls issued by the pass. -/
def reconcileOneShot (outcome : ReclaimOutcome) (st : OneShotStatus) :
    OneShotStatus × Nat :=
  match st.result with
  | some _ => (st, 0)
  | none =>
      match outcome with
      | ReclaimOutcome.ok =>
          ({ result := some OperationResult.succeeded
             message := "reclaim space operation successfully completed" }, 1)
      | ReclaimOutcome.volumeNotFound =>
          ({ result := some OperationResult.failed
             message := "volume not found" }, 1)
      | ReclaimOutcome.transientError => (st, 1)

/-- Iterate the one-shot reconcile for a number of passes. -/
def runOneShot (outcome : ReclaimOutcome) (st : OneShotStatus) : Nat → OneShotStatus
  | 0 => st
  | n + 1 => runOneShot outcome (reconcileOneShot outcome st).1 n

/-- Total number of RPC calls issued over a number of passes. -/
def runOneShotCalls (outcome : ReclaimOutcome) (st : OneShotStatus) : Nat → Nat
  | 0 => 0
  | n + 1 =>
      (reconcileOneShot outcome st).2 +
        runOneShotCalls outcome (reconcileOneShot outcome st).1 n

/-! ### Scheduled operations (spec section 3, ScheduledOperation) -/

/-- Owner reference carried by an emitted one-shot operation. -/
structure OwnerRef where
  kind : String
  name : String
  deriving DecidableEq, Repr

/-- A one-shot operation instance emitted by a schedule tick. -/
structure ScheduledJob where
  ownerRef : OwnerRef
  scheduledAt : Nat
  deriving DecidableEq, Repr

/-- Status bookkeeping of a CronJob-style ScheduledOperation. -/
structure CronState where
  lastScheduleTime : Option Nat
  activeJob : Bool
  jobs : List ScheduledJob
  deriving DecidableEq, Repr

/-- Modelled from the spec: one schedule tick of the Job/CronJob Scheduler
Adapter (spec sections 2 and 3).  At most one new one-shot operation is created
per tick; a tick firing while a prior instance is still running is skipped,
not re-entered (spec section 9 chooses skip); a created operation carries an
owner reference to its parent, and the parent's last-schedule time is
recorded. -/
def schedTick (parent : String) (now : Nat) (s : CronState) : CronState :=
  if s.activeJob then s
  else
    { lastScheduleTime := some now
      activeJob := true
      jobs := s.jobs ++
        [{ ownerRef := { kind := "ReclaimSpaceCronJob", name := parent }
           scheduledAt := now }] }

/-! ### Replication state machine (spec section 4.2) -/

/-- Desired replication state of a replication Intent. -/
inductive ReplicationState where
  | primary
  | secondary
  | resync
  deriving DecidableEq, Repr

/-- A status condition: type, status flag and message. -/
structure Condition where
  condType : String
  status : Bool
  message : String
  deriving DecidableEq, Repr

/-- Typed RPC calls of the replication operation family. -/
inductive RpcCall where
  | enableReplication
  | promote
  | demote
  | triggerResync
  deriving DecidableEq, Repr

/-- Modelled from the spec: the RPC call driving each desired-state transition
(spec section 4.2: promote for Primary, demote for Secondary, the resync
trigger for Resync). -/
def transitionCall : ReplicationState → RpcCall
  | ReplicationState.primary => RpcCall.promote
  | ReplicationState.secondary => RpcCall.demote
  | ReplicationState.resync => RpcCall.triggerResync

/-- Status of a replication Intent: last successfully observed state plus the
condition list. -/
structure ReplicationStatus where
  observedState : Option ReplicationState
  conditions : List Condition
  deriving DecidableEq, Repr

/-- Modelled from the spec: one reconcile pass of the replication state machine
(spec section 4.2).  If the desired state equals the last successfully
observed state no RPC is issued (idempotent short-circuit); on first reconcile
enable-replication precedes the first transition; a successful transition sets
the observed state and a Completed condition, a failed one leaves the observed
state unchanged and appends an error condition.  The second component lists
the RPC calls issued by the pass. -/
def reconcileReplication (desired : ReplicationState) (outcome : RpcOutcome)
    (st : ReplicationStatus) : ReplicationStatus × List RpcCall :=
  match st.observedState with
  | some obs =>
      if desired = obs then (st, [])
      else
        match outcome with
        | RpcOutcome.success _ =>
            ({ observedState := some desired
               conditions := [{ condType := "Completed", status := true
                                message := "replication state transition completed" }] },
             [transitionCall desired])
        | RpcOutcome.failure m =>
            ({ st with conditions :=
                st.conditions ++ [{ condType := "Completed", status := false, message := m }] },
             [transitionCall desired])
  | none =>
      match outcome with
      | RpcOutcome.success _ =>
          ({ observedState := some desired
             conditions := [{ condType := "Completed", status := true
                              message := "replication state transition completed" }] },
           [RpcCall.enableReplication, transitionCall desired])
      | RpcOutcome.failure m =>
          ({ st with conditions :=
              st.conditions ++ [{ condType := "Completed", status := false, message := m }] },
           [RpcCall.enableReplication])

/-- Conditions recording an error (status flag false). -/
def errorConditions (st : ReplicationStatus) : List Condition :=
  st.conditions.filter (fun c => !c.status)

/-! ### Storage-class selection in the e2e framework
(translated from `test/e2e/framework/csiaddons.go` and
`test/e2e/config/config.go`) -/

/-- StorageConfig from `test/e2e/config/config.go`: the default storage class
and the per-feature storage class names. -/
structure StorageConfig where
  storageClassName : String
  reclaimSpaceStorageClassName : String
  encryptionKeyRotationStorageClassName : String
  networkFenceStorageClassName : String
  volumeReplicationStorageClassName : String
  volumeGroupReplicationStorageClassName : String
  deriving DecidableEq, Repr

/-- GetReclaimSpaceStorageClassName from `csiaddons.go`: falls back to the
default storage class if the feature-specific one is not specified. -/
def getReclaimSpaceStorageClassName (c : StorageConfig) : String :=
  if c.reclaimSpaceStorageClassName != "" then c.reclaimSpaceStorageClassName
  else c.storageClassName

/-- GetEncryptionKeyRotationStorageClassName from `csiaddons.go`. -/
def getEncryptionKeyRotationStorageClassName (c : StorageConfig) : String :=
  if c.encryptionKeyRotationStorageClassName != "" then c.encryptionKeyRotationStorageClassName
  else c.storageClassName

/-- GetNetworkFenceStorageClassName from `csiaddons.go`. -/
def getNetworkFenceStorageClassName (c : StorageConfig) : String :=
  if c.networkFenceStorageClassName != "" then c.networkFenceStorageClassName
  else c.storageClassName

/-- GetVolumeReplicationStorageClassName from `csiaddons.go`. -/
def getVolumeReplicationStorageClassName (c : StorageConfig) : String :=
  if c.volumeReplicationStorageClassName != "" then c.volumeReplicationStorageClassName
  else c.storageClassName

/-- GetVolumeGroupReplicationStorageClassName from `csiaddons.go`. -/
def getVolumeGroupReplicationStorageClassName (c : StorageConfig) : String :=
  if c.volumeGroupReplicationStorageClassName != "" then c.volumeGroupReplicationStorageClassName
  else c.storageClassName

/-! ### Concrete sample data used by witnesses -/

/-- Sample group selector, mirroring the label used in the e2e suite. -/
def groupSelector : List (String × String) := [("replication-group", "test-group")]

/-- Sample bound claim one. -/
def pvcOne : VolumeClaim :=
  { name := "test-pvc-1", labels := groupSelector, phase := ClaimPhase.bound
    volumeHandle := "vol-1" }

/-- Sample bound claim two. -/
def pvcTwo : VolumeClaim :=
  { name := "test-pvc-2", labels := groupSelector, phase := ClaimPhase.bound
    volumeHandle := "vol-2" }

/-- Sample bound claim three. -/
def pvcThree : VolumeClaim :=
  { name := "test-pvc-3", labels := groupSelector, phase := ClaimPhase.bound
    volumeHandle := "vol-3" }

/-- Sample bound claim four. -/
def pvcFour : VolumeClaim :=
  { name := "test-pvc-4", labels := groupSelector, phase := ClaimPhase.bound
    volumeHandle := "vol-4" }

/-- Sample group intent with an empty member list. -/
def sampleIntent : GroupIntent := { selector := groupSelector, members := [] }

/-- Sample empty Content. -/
def sampleContent : GroupContent := { volumeHandles := [] }

/-- Sample storage configuration with a feature-specific class set for
reclaim-space only. -/
def sampleStorageConfig : StorageConfig :=
  { storageClassName := "rook-ceph-block"
    reclaimSpaceStorageClassName := "rook-ceph-block-rs"
    encryptionKeyRotationStorageClassName := ""
    networkFenceStorageClassName := ""
    volumeReplicationStorageClassName := ""
    volumeGroupReplicationStorageClassName := "" }

/-! ### Theorems -/

/-- C10: for every operation family, the per-feature storage-class getter
returns the feature-specific configured storage class name when it is
non-empty, and otherwise falls back to the global default storage class name;
it never prefers an empty feature-specific value over a configured default. -/
theorem storage_class_fallback (c : StorageConfig) :
    ((c.reclaimSpaceStorageClassName ≠ "" →
        getReclaimSpaceStorageClassName c = c.reclaimSpaceStorageClassName)
      ∧ (c.reclaimSpaceStorageClassName = "" →
        getReclaimSpaceStorageClassName c = c.storageClassName))
    ∧ ((c.encryptionKeyRotationStorageClassName ≠ "" →
        getEncryptionKeyRotationStorageClassName c = c.encryptionKeyRotationStorageClassName)
      ∧ (c.encryptionKeyRotationStorageClassName = "" →
        getEncryptionKeyRotationStorageClassName c = c.storageClassName))
    ∧ ((c.networkFenceStorageClassName ≠ "" →
        getNetworkFenceStorageClassName c = c.networkFenceStorageClassName)
      ∧ (c.networkFenceStorageClassName = "" →
        getNetworkFenceStorageClassName c = c.storageClassName))
    ∧ ((c.volumeReplicationStorageClassName ≠ "" →
        getVolumeReplicationStorageClassName c = c.volumeReplicationStorageClassName)
      ∧ (c.volumeReplicationStorageClassName = "" →
        getVolumeReplicationStorageClassName c = c.storageClassName))
    ∧ ((c.volumeGroupReplicationStorageClassName ≠ "" →
        getVolumeGroupReplicationStorageClassName c = c.volumeGroupReplicationStorageClassName)
      ∧ (c.volumeGroupReplicationStorageClassName = "" →
        getVolumeGroupReplicationStorageClassName c = c.storageClassName)) := by
  refine ⟨⟨?_, ?_⟩, ⟨?_, ?_⟩, ⟨?_, ?_⟩, ⟨?_, ?_⟩, ⟨?_, ?_⟩⟩ <;> intro h <;>
    simp [getReclaimSpaceStorageClassName, getEncryptionKeyRotationStorageClassName,
      getNetworkFenceStorageClassName, getVolumeReplicationStorageClassName,
      getVolumeGroupReplicationStorageClassName, h]

/-- Witness for C10, at the sample configuration. -/
theorem storage_class_fallback_witness :
    getReclaimSpaceStorageClassName sampleStorageConfig = "rook-ceph-block-rs"
    ∧ getNetworkFenceStorageClassName sampleStorageConfig = "rook-ceph-block" :=
  ⟨(storage_class_fallback sampleStorageConfig).1.1 (by decide),
   (storage_class_fallback sampleStorageConfig).2.2.1.2 (by decide)⟩

/-- C8: reconciling a replication Intent whose desired state equals the last
successfully observed state issues zero RPC calls and leaves the status
unchanged (idempotent short-circuit on periodic resync). -/
theorem replication_idempotent_short_circuit (desired : ReplicationState)
    (outcome : RpcOutcome) (st : ReplicationStatus)
    (h : st.observedState = some desired) :
    reconcileReplication desired outcome st = (st, []) := by
  simp [reconcileReplication, h]

/-- Witness for C8, at a Primary-state resource on resync. -/
theorem replication_idempotent_short_circuit_witness :
    reconcileReplication ReplicationState.primary (RpcOutcome.success "")
      { observedState := some ReplicationState.primary, conditions := [] } =
      ({ observedState := some ReplicationState.primary, conditions := [] }, []) :=
  replication_idempotent_short_circuit ReplicationState.primary (RpcOutcome.success "")
    { observedState := some ReplicationState.primary, conditions := [] } rfl

/-- C9: the spec-edit sequence Primary to Secondary and back to Primary, with
each transition RPC succeeding, returns the observed status state to Primary
with no residual error conditions in the condition list. -/
theorem replication_round_trip (st0 : ReplicationStatus)
    (h : st0.observedState = some ReplicationState.primary) :
    ((reconcileReplication ReplicationState.primary (RpcOutcome.success "")
        (reconcileReplication ReplicationState.secondary (RpcOutcome.success "") st0).1).1).observedState
      = some ReplicationState.primary
    ∧ errorConditions
        ((reconcileReplication ReplicationState.primary (RpcOutcome.success "")
          (reconcileReplication ReplicationState.secondary (RpcOutcome.success "") st0).1).1) = [] := by
  simp [reconcileReplication, h, errorConditions]

/-- Witness for C9, starting from a clean Primary status. -/
theorem replication_round_trip_witness :
    ((reconcileReplication ReplicationState.primary (RpcOutcome.success "")
        (reconcileReplication ReplicationState.secondary (RpcOutcome.success "")
          { observedState := some ReplicationState.primary, conditions := [] }).1).1).observedState
      = some ReplicationState.primary :=
  (replication_round_trip { observedState := some ReplicationState.primary, conditions := [] }
    rfl).1

/-- C2: a successful fence operation records result Succeeded with a message
containing "fencing operation successful", a successful unfence records
Succeeded with "unfencing operation successful", and the fence/unfence cycle
repeated three times yields Succeeded with the message matching the current
desired state each time. -/
theorem fence_message_contract :
    (∀ (d : FenceState) (m : String) (st : FenceStatus),
        (reconcileFence d (RpcOutcome.success m) st).result =
          some FencingOperationResult.succeeded
        ∧ containsSubstr (reconcileFence d (RpcOutcome.success m) st).message
            (fenceOperationMessage d))
    ∧ ∀ st0 : FenceStatus,
        runFenceEdits [FenceState.fenced, FenceState.unfenced, FenceState.fenced,
            FenceState.unfenced] st0 =
          [{ result := some FencingOperationResult.succeeded
             message := "fencing operation successful" },
           { result := some FencingOperationResult.succeeded
             message := "unfencing operation successful" },
           { result := some FencingOperationResult.succeeded
             message := "fencing operation successful" },
           { result := some FencingOperationResult.succeeded
             message := "unfencing operation successful" }] := by
  constructor
  · intro d m st
    refine ⟨rfl, "", "", ?_⟩
    simp [reconcileFence]
  · intro st0
    rfl

/-- Helper: a one-shot status with its result set is terminal, so a reconcile
pass returns it unchanged and issues no RPC. -/
theorem reconcileOneShot_terminal (outcome : ReclaimOutcome) (st : OneShotStatus)
    (h : st.result.isSome = true) : reconcileOneShot outcome st = (st, 0) := by
  obtain ⟨r, hr⟩ := Option.isSome_iff_exists.mp h
  simp [reconcileOneShot, hr]

/-- Helper: iterating the reconcile on a terminal one-shot status changes
nothing and issues no RPC calls. -/
theorem runOneShot_terminal (outcome : ReclaimOutcome) (st : OneShotStatus)
    (h : st.result.isSome = true) (k : Nat) :
    runOneShot outcome st k = st ∧ runOneShotCalls outcome st k = 0 := by
  induction k with
  | zero => exact ⟨rfl, rfl⟩
  | succ k ih =>
      have hrec := reconcileOneShot_terminal outcome st h
      constructor
      · simpa [runOneShot, hrec] using ih.1
      · simp [runOneShotCalls, hrec, ih.2]

/-- C6: a one-shot operation whose target does not exist terminates with result
Failed in the first reconcile pass; once the result is set the operation is
terminal and never re-executed, so any number of further passes keeps the
Failed result and the total RPC count stays at one (no indefinite retry). -/
theorem oneshot_missing_target_terminal :
    (∀ st : OneShotStatus, st.result = none →
        (reconcileOneShot (reclaimSpaceRpc false) st).1.result = some OperationResult.failed
        ∧ (reconcileOneShot (reclaimSpaceRpc false) st).2 = 1)
    ∧ (∀ st : OneShotStatus, st.result.isSome = true →
        reconcileOneShot (reclaimSpaceRpc false) st = (st, 0))
    ∧ (∀ n : Nat, 1 ≤ n → ∀ st : OneShotStatus, st.result = none →
        (runOneShot (reclaimSpaceRpc false) st n).result = some OperationResult.failed
        ∧ runOneShotCalls (reclaimSpaceRpc false) st n = 1) := by
  refine ⟨?_, ?_, ?_⟩
  · intro st h
    simp [reconcileOneShot, reclaimSpaceRpc, h]
  · intro st h
    exact reconcileOneShot_terminal _ st h
  · intro n hn st h
    obtain ⟨k, rfl⟩ : ∃ k, n = k + 1 := ⟨n - 1, by omega⟩
    have hfirst : reconcileOneShot (reclaimSpaceRpc false) st =
        ({ result := some OperationResult.failed, message := "volume not found" }, 1) := by
      simp [reconcileOneShot, reclaimSpaceRpc, h]
    have hterm := runOneShot_terminal (reclaimSpaceRpc false)
      { result := some OperationResult.failed, message := "volume not found" } rfl k
    constructor
    · simp [runOneShot, hfirst, hterm.1]
    · simp [runOneShotCalls, hfirst, hterm.2]

/-- Witness for C6, at an unset status over three passes. -/
theorem oneshot_missing_target_terminal_witness :
    (runOneShot (reclaimSpaceRpc false) { result := none, message := "" } 3).result =
      some OperationResult.failed
    ∧ runOneShotCalls (reclaimSpaceRpc false) { result := none, message := "" } 3 = 1 :=
  oneshot_missing_target_terminal.2.2 3 (by decide) { result := none, message := "" } rfl

/-- C7: each schedule tick creates at most one new one-shot operation, a tick
firing while a prior instance is still running is skipped (not re-entered),
every operation created by a tick carries an owner reference to the parent
CronJob resource, and the parent's last-schedule timestamp is set and advances
monotonically. -/
theorem scheduled_tick_properties (parent : String) (now : Nat) (s : CronState) :
    ((schedTick parent now s).jobs.length ≤ s.jobs.length + 1)
    ∧ (s.activeJob = true → schedTick parent now s = s)
    ∧ (∀ j ∈ (schedTick parent now s).jobs,
        j ∈ s.jobs ∨ j.ownerRef = { kind := "ReclaimSpaceCronJob", name := parent })
    ∧ (∀ t, s.lastScheduleTime = some t → t ≤ now →
        ∃ u, (schedTick parent now s).lastScheduleTime = some u ∧ t ≤ u)
    ∧ (s.activeJob = false →
        (schedTick parent now s).lastScheduleTime = some now
        ∧ (schedTick parent now s).jobs.length = s.jobs.length + 1) := by
  cases hact : s.activeJob with
  | true =>
      refine ⟨by simp [schedTick, hact], fun _ => by simp [schedTick, hact],
        fun j hj => Or.inl (by simpa [schedTick, hact] using hj),
        fun t ht _ => ⟨t, by simp [schedTick, hact, ht], le_refl t⟩,
        fun hfalse => by simp [hact] at hfalse⟩
  | false =>
      refine ⟨by simp [schedTick, hact], fun htrue => by simp [hact] at htrue,
        fun j hj => ?_, fun t ht hle => ⟨now, by simp [schedTick, hact], hle⟩,
        fun _ => by simp [schedTick, hact]⟩
      simp only [schedTick, hact, Bool.false_eq_true, if_false, List.mem_append,
        List.mem_singleton] at hj
      rcases hj with hmem | hmem
      · exact Or.inl hmem
      · exact Or.inr (by rw [hmem])

/-- Witness for C7, at a one-minute tick on an idle parent. -/
theorem scheduled_tick_properties_witness :
    (schedTick "test-rs-cronjob" 60
        { lastScheduleTime := some 0, activeJob := false, jobs := [] }).lastScheduleTime =
      some 60
    ∧ ∃ u, (schedTick "test-rs-cronjob" 60
        { lastScheduleTime := some 0, activeJob := false, jobs := [] }).lastScheduleTime =
          some u ∧ 0 ≤ u :=
  ⟨((scheduled_tick_properties "test-rs-cronjob" 60
      { lastScheduleTime := some 0, activeJob := false, jobs := [] }).2.2.2.2 rfl).1,
   (scheduled_tick_properties "test-rs-cronjob" 60
      { lastScheduleTime := some 0, activeJob := false, jobs := [] }).2.2.2.1 0 rfl
      (by omega)⟩

/-- Helper: inductive invariant of the deletion-ordering system.  While the
Intent exists, the referenced claim carries its protective finalizer and is
present, and the derived Content is in place only while its owner exists; once
the Intent is gone the finalizer has been removed. -/
theorem reachable_protects (s : ClusterState) (hr : Reachable s) :
    (s.intentExists = true → s.claimFinalizer = true ∧ s.claimExists = true)
    ∧ (s.intentExists = false → s.claimFinalizer = false)
    ∧ (s.contentExists = true → s.intentExists = true) := by
  induction hr with
  | init => simp [initState]
  | step hr hstep ih =>
      cases hstep with
      | requestClaimDeletion h => exact ih
      | removeClaim h hreq hfin =>
          refine ⟨fun hi => ?_, fun hni => ih.2.1 hni, fun hc => ih.2.2 hc⟩
          have h1 := (ih.1 hi).1
          rw [hfin] at h1
          exact absurd h1 (by simp)
      | requestIntentDeletion h => exact ih
      | finalizeIntent h hd =>
          exact ⟨fun hi => Bool.noConfusion hi, fun _ => rfl,
            fun hc => Bool.noConfusion hc⟩

/-- C3: a VolumeClaim referenced by a still-existing non-terminal replication
Intent is never physically removed; requesting its deletion leaves it present
with the deletion timestamp set; and once deletion of the claim has been
requested, a finite sequence of enabled steps (deleting the Intent, whose
finalizer logic always completes because a missing backend target counts as
success) removes the claim — there is no permanent deadlock. -/
theorem claim_deletion_ordering :
    (∀ s : ClusterState, Reachable s → s.intentExists = true → s.claimExists = true)
    ∧ (∀ s : ClusterState, Reachable s → s.intentExists = true →
        Step s { s with claimDeletionRequested := true }
        ∧ ({ s with claimDeletionRequested := true } : ClusterState).claimExists = true
        ∧ ({ s with claimDeletionRequested := true } : ClusterState).claimDeletionRequested
            = true)
    ∧ (∀ s : ClusterState, Reachable s → s.claimDeletionRequested = true →
        ∃ t, StepSeq s t ∧ t.intentExists = false ∧ t.claimExists = false) := by
  refine ⟨fun s hr hi => ((reachable_protects s hr).1 hi).2, fun s hr hi => ?_, ?_⟩
  · have hc := ((reachable_protects s hr).1 hi).2
    exact ⟨Step.requestClaimDeletion s hc, hc, rfl⟩
  · intro s hr hreq
    cases hi : s.intentExists with
    | true =>
        have hc := ((reachable_protects s hr).1 hi).2
        exact ⟨_,
          StepSeq.tail (StepSeq.tail (StepSeq.tail (StepSeq.refl s)
            (Step.requestIntentDeletion s hi))
            (Step.finalizeIntent { s with intentDeleting := true } hi rfl))
            (Step.removeClaim _ hc hreq rfl),
          rfl, rfl⟩
    | false =>
        have hfin := (reachable_protects s hr).2.1 hi
        cases hc : s.claimExists with
        | true =>
            exact ⟨_, StepSeq.tail (StepSeq.refl s) (Step.removeClaim s hc hreq hfin),
              hi, rfl⟩
        | false => exact ⟨s, StepSeq.refl s, hi, hc⟩

/-- Witness for C3, from the initial state: the claim is present, and after a
deletion request there is a step sequence ending with the Intent and the claim
both removed. -/
theorem claim_deletion_ordering_witness :
    initState.claimExists = true
    ∧ ∃ t, StepSeq { initState with claimDeletionRequested := true } t
        ∧ t.intentExists = false ∧ t.claimExists = false :=
  ⟨claim_deletion_ordering.1 initState Reachable.init rfl,
   claim_deletion_ordering.2.2 { initState with claimDeletionRequested := true }
     (Reachable.step Reachable.init (Step.requestClaimDeletion initState rfl)) rfl⟩

/-- C5: the derived Content resource is deleted only as a cascade of its
owning Intent's deletion (the sole step that removes the Content is the
owner's finalizer completion, which also removes the Intent); the Content
never outlives its owner; and once the owner's deletion has been requested, a
finite step sequence removes both the Intent and the Content. -/
theorem content_owner_cascade :
    (∀ s t : ClusterState, Step s t → s.contentExists = true → t.contentExists = false →
        s.intentDeleting = true ∧ t.intentExists = false)
    ∧ (∀ s : ClusterState, Reachable s → s.contentExists = true → s.intentExists = true)
    ∧ (∀ s : ClusterState, Reachable s → s.intentDeleting = true →
        ∃ t, StepSeq s t ∧ t.intentExists = false ∧ t.contentExists = false) := by
  refine ⟨?_, fun s hr => (reachable_protects s hr).2.2, ?_⟩
  · intro s t hstep hsc htc
    cases hstep with
    | requestClaimDeletion h => exact Bool.noConfusion (hsc.symm.trans htc)
    | removeClaim h hreq hfin => exact Bool.noConfusion (hsc.symm.trans htc)
    | requestIntentDeletion h => exact Bool.noConfusion (hsc.symm.trans htc)
    | finalizeIntent h hd => exact ⟨hd, rfl⟩
  · intro s hr hd
    cases hi : s.intentExists with
    | true =>
        exact ⟨_, StepSeq.tail (StepSeq.refl s) (Step.finalizeIntent s hi hd), rfl, rfl⟩
    | false =>
        refine ⟨s, StepSeq.refl s, hi, ?_⟩
        cases hc : s.contentExists with
        | true => exact Bool.noConfusion (((reachable_protects s hr).2.2 hc).symm.trans hi)
        | false => rfl

/-- Witness for C5, from the initial state: the owner exists, and after its
deletion is requested a step sequence removes both the Intent and the derived
Content. -/
theorem content_owner_cascade_witness :
    initState.intentExists = true
    ∧ ∃ t, StepSeq { initState with intentDeleting := true } t
        ∧ t.intentExists = false ∧ t.contentExists = false :=
  ⟨content_owner_cascade.2.1 initState Reachable.init rfl,
   content_owner_cascade.2.2 { initState with intentDeleting := true }
     (Reachable.step Reachable.init (Step.requestIntentDeletion initState rfl)) rfl⟩

/-- C1: resolving a group Intent's membership over an inventory of three
matching bound claims records exactly those claims' names; resolving after a
fourth matching bound claim appears grows the member list to include it,
keeping the others; resolving after the group label is removed from one claim
drops exactly that claim's name and preserves the others. -/
theorem group_membership_resolution
    (sel : List (String × String)) (key : String) (c1 c2 c3 c4 : VolumeClaim)
    (g : GroupIntent) (hg : g.selector = sel)
    (h1 : isMember sel c1 = true) (h2 : isMember sel c2 = true)
    (h3 : isMember sel c3 = true) (h4 : isMember sel c4 = true)
    (h5 : isMember sel (removeLabel key c2) = false) :
    (reconcileMembership g [c1, c2, c3]).members = [c1.name, c2.name, c3.name]
    ∧ (reconcileMembership g [c1, c2, c3, c4]).members =
        [c1.name, c2.name, c3.name, c4.name]
    ∧ (reconcileMembership g [c1, removeLabel key c2, c3]).members =
        [c1.name, c3.name] := by
  subst hg
  refine ⟨?_, ?_, ?_⟩ <;>
    simp [reconcileMembership, memberNames, resolveMembership, List.filter_cons,
      h1, h2, h3, h4, h5]

/-- Witness for C1, mirroring the e2e scenario with the replication-group
label. -/
theorem group_membership_resolution_witness :
    (reconcileMembership sampleIntent [pvcOne, pvcTwo, pvcThree]).members =
        ["test-pvc-1", "test-pvc-2", "test-pvc-3"]
    ∧ (reconcileMembership sampleIntent [pvcOne, pvcTwo, pvcThree, pvcFour]).members =
        ["test-pvc-1", "test-pvc-2", "test-pvc-3", "test-pvc-4"]
    ∧ (reconcileMembership sampleIntent
        [pvcOne, removeLabel "replication-group" pvcTwo, pvcThree]).members =
        ["test-pvc-1", "test-pvc-3"] :=
  group_membership_resolution groupSelector "replication-group" pvcOne pvcTwo pvcThree
    pvcFour sampleIntent rfl (by decide) (by decide) (by decide) (by decide) (by decide)

/-- Helper: with claim names unique in the inventory, the bound backend
volumes of the claims named by the freshly resolved member list are exactly
the backend volumes of the resolved member set. -/
theorem boundHandles_of_resolved (sel : List (String × String)) (inv : List VolumeClaim)
    (hnames : (inv.map VolumeClaim.name).Nodup) :
    boundHandlesOfMembers (memberNames sel inv) inv =
      (resolveMembership sel inv).map VolumeClaim.volumeHandle := by
  have hinj := List.inj_on_of_nodup_map hnames
  have hfilter : inv.filter
      (fun c => (memberNames sel inv).contains c.name && c.phase == ClaimPhase.bound) =
      inv.filter (fun c => isMember sel c) := by
    apply List.filter_congr
    intro c hc
    cases hmem : isMember sel c with
    | true =>
        have hbound : (c.phase == ClaimPhase.bound) = true :=
          (Bool.and_eq_true _ _ |>.mp hmem).2
        have hres : c ∈ resolveMembership sel inv :=
          List.mem_filter.mpr ⟨hc, hmem⟩
        have hname : c.name ∈ memberNames sel inv :=
          List.mem_map_of_mem VolumeClaim.name hres
        simp [hbound, hname]
    | false =>
        cases hbound : (c.phase == ClaimPhase.bound) with
        | false => simp [hbound]
        | true =>
            cases hcon : (memberNames sel inv).contains c.name with
            | false => simp [hcon]
            | true =>
                exfalso
                have hname : c.name ∈ memberNames sel inv := by
                  simpa using hcon
                obtain ⟨c2, hc2res, hc2name⟩ := List.mem_map.mp hname
                have hc2inv : c2 ∈ inv := (List.mem_filter.mp hc2res).1
                have hc2mem : isMember sel c2 = true := (List.mem_filter.mp hc2res).2
                have : c2 = c := hinj hc2inv hc hc2name
                rw [this, hmem] at hc2mem
                exact Bool.noConfusion hc2mem
  simp only [boundHandlesOfMembers, resolveMembership, hfilter]

/-- C4: after a full reconcile pass (the bounded steady-state convergence
step) the Content's volume-handle list equals the backend volumes of the
resolved member set, which are exactly the bound backend volumes of the claims
currently in the Intent's member list; with distinct backend handles in the
inventory the list has no duplicates, and every recorded handle belongs to a
current member (no stale entries). -/
theorem content_handles_converge
    (g : GroupIntent) (inv : List VolumeClaim) (content : GroupContent)
    (hnames : (inv.map VolumeClaim.name).Nodup)
    (hhandles : (inv.map VolumeClaim.volumeHandle).Nodup) :
    ((fullReconcile g inv content).2.volumeHandles =
        boundHandlesOfMembers (fullReconcile g inv content).1.members inv)
    ∧ ((fullReconcile g inv content).2.volumeHandles =
        (resolveMembership g.selector inv).map VolumeClaim.volumeHandle)
    ∧ (fullReconcile g inv content).2.volumeHandles.Nodup
    ∧ (∀ h ∈ (fullReconcile g inv content).2.volumeHandles,
        ∃ c, c ∈ inv ∧ isMember g.selector c = true ∧ c.volumeHandle = h
          ∧ c.name ∈ (fullReconcile g inv content).1.members) := by
  have hmain : (fullReconcile g inv content).2.volumeHandles =
      (resolveMembership g.selector inv).map VolumeClaim.volumeHandle :=
    boundHandles_of_resolved g.selector inv hnames
  refine ⟨rfl, hmain, ?_, ?_⟩
  · rw [hmain]
    exact List.Nodup.sublist (List.Sublist.map VolumeClaim.volumeHandle
      (List.filter_sublist inv)) hhandles
  · intro h hmem
    rw [hmain] at hmem
    obtain ⟨c, hcres, hch⟩ := List.mem_map.mp hmem
    refine ⟨c, (List.mem_filter.mp hcres).1, (List.mem_filter.mp hcres).2, hch, ?_⟩
    exact List.mem_map_of_mem VolumeClaim.name hcres

/-- Witness for C4, over the three sample claims. -/
theorem content_handles_converge_witness :
    (fullReconcile sampleIntent [pvcOne, pvcTwo, pvcThree] sampleContent).2.volumeHandles =
      ["vol-1", "vol-2", "vol-3"]
    ∧ (fullReconcile sampleIntent [pvcOne, pvcTwo, pvcThree]
        sampleContent).2.volumeHandles.Nodup := by
  have h := content_handles_converge sampleIntent [pvcOne, pvcTwo, pvcThree] sampleContent
    (by decide) (by decide)
  exact ⟨h.2.1.trans (by decide), h.2.2.1⟩

end CSIAddons
